import Mathlib

set_option maxRecDepth 16384

/-!
Verification of the Restaurant Trends ETL pipeline (`src/etl`).

The development shallowly embeds the pipeline's data model and operations:

* a cell value (`Value`) is null (covering Python `None` and NaN), a string,
  or an exact rational standing for a numeric cell;
* a table (`Table`) is a list of column names plus a list of rows, each row a
  list of cell values, mirroring a pandas `DataFrame`;
* `float(...)` parsing of strings is modelled structurally over ASCII:
  whitespace, sign, underscore-separated digit groups, fractional part,
  decimal exponent, the `inf`/`infinity`/`nan` names, and overflow of large
  finite literals to infinity at the exact binary64 bound `2^1024 - 2^970`;
  in-range finite values are kept as exact rationals (their sub-ULP binary64
  rounding is not modelled), and `int(float(...))` propagates the
  `OverflowError` of infinite results;
* the database is a pair of association tables keyed like the real
  `restaurant_location` / `restaurant_trend` tables, and the loader is a
  state-passing function over it; fallible steps return `Except`.

Definitions are translated from `etl/utils/parsing.py`, `etl/utils/cleaning.py`,
`etl/utils/mapping.py`, `etl/etl_restaurant_trends.py` and
`etl/loaders/postgres_loader.py`, keeping the source names.
-/

/-- A raw cell value: `null` covers Python `None` and float NaN (both satisfy
`pd.isna`), `str` is a text cell, `num` is a finite numeric cell with its
exact rational value, `inf` is an infinite float cell (`pd.isna` is false of
infinities). -/
inductive Value where
  | null : Value
  | str (s : String) : Value
  | num (q : ℚ) : Value
  | inf (neg : Bool) : Value
deriving DecidableEq

/-- One table row, as the list of its cell values in column order. -/
abbrev Row := List Value

/-- A pandas `DataFrame`: ordered column names and ordered rows. -/
structure Table where
  cols : List String
  rows : List Row
deriving DecidableEq

/-- `pd.isna` on a cell of our value domain. -/
def isNullV : Value → Bool
  | Value.null => true
  | _ => false

/-- The cell of row `r` in the first column named `c` (`df[c]` for one row);
`null` if the column is absent or the row is short. -/
def cellAt : List String → String → Row → Value
  | [], _, _ => Value.null
  | _ :: _, _, [] => Value.null
  | n :: ns, c, v :: vs => if n = c then v else cellAt ns c vs

/-! ## parsing.py: filename year extraction -/

/-- Base file name of a path: everything after the last `/`
(`os.path.basename` on a POSIX path), on character lists. -/
def baseChars (cs : List Char) : List Char :=
  (cs.reverse.takeWhile (fun c => decide (c ≠ '/'))).reverse

/-- Match of the anchored pattern `^YE(\d{2})` (case-insensitive) at the head
of a character list; on success the two digits `d₁d₀` give year
`2000 + 10·d₁ + d₀`.  The digit class is modelled on ASCII digits; CPython's
`\d` (no `re.ASCII`) also accepts Unicode decimal digits, which lie outside
the embedded character fragment. -/
def yeMatch : List Char → Option Nat
  | c0 :: c1 :: c2 :: c3 :: _ =>
    if (c0 = 'Y' ∨ c0 = 'y') ∧ (c1 = 'E' ∨ c1 = 'e') ∧
        c2.isDigit = true ∧ c3.isDigit = true then
      some (2000 + 10 * (c2.toNat - 48) + (c3.toNat - 48))
    else none
  | _ => none

/-- `extract_year_from_filename`: take the base name of the path and match
`^YE(\d{2})` case-insensitively; on a match add 2000 to the two-digit year,
otherwise return none. -/
def extract_year_from_filename (filename : String) : Option Nat :=
  yeMatch (baseChars filename.data)

/-- Modelled from the spec: the spec's description of the filename pattern, a
base name starting (case-insensitively) with the literal `YE` followed by
exactly two digits.  Used only to compare `extract_year_from_filename` against
the spec's wording. -/
def specYEPatternB : List Char → Bool
  | c0 :: c1 :: c2 :: c3 :: _ =>
    ((c0 = 'Y' ∨ c0 = 'y') ∧ (c1 = 'E' ∨ c1 = 'e') ∧
      c2.isDigit = true ∧ c3.isDigit = true : Bool)
  | _ => false

/-- The two-character decimal rendering of `d < 100`, as used in file names
such as `YE24 ...`. -/
def twoDigitStr (d : Nat) : String :=
  ⟨[Char.ofNat (48 + d / 10), Char.ofNat (48 + d % 10)]⟩

/-! ## parsing.py: type coercion

Python `float(str)` is modelled by an exact structural parser covering the
forms the source can meet: surrounding whitespace, an optional sign,
underscore-separated digit groups, an optional fractional part and decimal
exponent, the special names `inf`/`infinity`/`nan` (ASCII case-insensitive),
and overflow of large finite literals to infinity at the exact binary64
threshold `2^1024 - 2^970`.  Finite values are kept as exact rationals: the
sub-ULP binary64 rounding of in-range values is not modelled, and characters
are ASCII (Unicode digits and spaces accepted by CPython are outside the
embedded fragment). -/

/-- Numeric value of a list of decimal digit characters. -/
def digitsVal (cs : List Char) : Nat :=
  cs.foldl (fun n c => 10 * n + (c.toNat - 48)) 0

/-- Strip one optional leading sign character. -/
def parseSign : List Char → Bool × List Char
  | '-' :: cs => (true, cs)
  | '+' :: cs => (false, cs)
  | cs => (false, cs)

/-- The ASCII whitespace characters Python `float(str)` strips from both
ends. -/
def isPySpace (c : Char) : Bool :=
  c = ' ' ∨ c = '\t' ∨ c = '\n' ∨ c = '\r' ∨ c.toNat = 11 ∨ c.toNat = 12

/-- Strip float-literal whitespace from both ends of a character list. -/
def stripWS (cs : List Char) : List Char :=
  ((cs.dropWhile isPySpace).reverse.dropWhile isPySpace).reverse

/-- ASCII lower-casing, for the case-insensitive match of `inf`, `infinity`
and `nan`. -/
def asciiLower (c : Char) : Char :=
  if 'A' ≤ c ∧ c ≤ 'Z' then Char.ofNat (c.toNat + 32) else c

/-- A digit character or a group-separating underscore. -/
def isDigitU (c : Char) : Bool :=
  c.isDigit || c = '_'

/-- Validity of one Python digit run with underscores: every underscore must
sit between two digits (`1_000` is valid; `_1`, `1_` and `1__0` are not). -/
def digitRunOK : List Char → Bool
  | [] => false
  | [c] => c.isDigit
  | c :: '_' :: rest => c.isDigit && digitRunOK rest
  | c :: rest => c.isDigit && digitRunOK rest

/-- Value of a digit run after removing underscores. -/
def runVal (cs : List Char) : Nat :=
  digitsVal (cs.filter Char.isDigit)

/-- Number of digits of a digit run. -/
def runLen (cs : List Char) : Nat :=
  (cs.filter Char.isDigit).length

/-- Parse the mantissa `digits [. digits]` of a float literal (underscored
runs allowed, at least one digit overall); returns the integer-part value,
fractional value, fractional digit count and the unconsumed remainder. -/
def parseMantissa (cs : List Char) : Option (Nat × Nat × Nat × List Char) :=
  let irun := cs.takeWhile isDigitU
  let rest1 := cs.dropWhile isDigitU
  if irun.isEmpty then
    match rest1 with
    | '.' :: cs2 =>
      let frun := cs2.takeWhile isDigitU
      let rest2 := cs2.dropWhile isDigitU
      if digitRunOK frun then some (0, runVal frun, runLen frun, rest2)
      else none
    | _ => none
  else if digitRunOK irun then
    match rest1 with
    | '.' :: cs2 =>
      let frun := cs2.takeWhile isDigitU
      let rest2 := cs2.dropWhile isDigitU
      if frun.isEmpty then some (runVal irun, 0, 0, rest2)
      else if digitRunOK frun then
        some (runVal irun, runVal frun, runLen frun, rest2)
      else none
    | _ => some (runVal irun, 0, 0, rest1)
  else none

/-- Parse the optional exponent `e[±]digits` closing a float literal; the
input must be fully consumed. -/
def parseExp : List Char → Option Int
  | [] => some 0
  | c :: cs =>
    if c = 'e' ∨ c = 'E' then
      let p := parseSign cs
      let erun := p.2.takeWhile isDigitU
      let rest := p.2.dropWhile isDigitU
      if rest.isEmpty && digitRunOK erun then
        some (if p.1 then -(runVal erun : Int) else (runVal erun : Int))
      else none
    else none

/-- A parsed float literal in structural form: sign, integer-part value,
fractional value and digit count, decimal exponent; it denotes the magnitude
`(ip + fr / 10^fl) · 10^ex`. -/
structure PyDec where
  sign : Bool
  ip : Nat
  fr : Nat
  fl : Nat
  ex : Int
deriving DecidableEq

/-- Outcome of `float(str)` parsing: a finite literal, a signed infinity, or
NaN. -/
inductive PyParse where
  | num (p : PyDec)
  | inf (neg : Bool)
  | nan
deriving DecidableEq

/-- `float(s)` parsing: strip whitespace, take an optional sign, then either
`inf`/`infinity`/`nan` (ASCII case-insensitive) or a decimal literal with
optional underscore groups and exponent.  `none` where `float` raises
`ValueError`. -/
def pyFloatParse (s : String) : Option PyParse :=
  let cs := stripWS s.data
  let pr := parseSign cs
  let lower := pr.2.map asciiLower
  if lower = "inf".data ∨ lower = "infinity".data then some (PyParse.inf pr.1)
  else if lower = "nan".data then some PyParse.nan
  else
    match parseMantissa pr.2 with
    | none => none
    | some (ip, fr, fl, rest) =>
      match parseExp rest with
      | none => none
      | some e => some (PyParse.num ⟨pr.1, ip, fr, fl, e⟩)

/-- Numerator of the magnitude of a parsed literal over `den10`:
`(ip·10^fl + fr) · 10^max(ex,0)`. -/
def PyDec.num10 (p : PyDec) : Nat :=
  (p.ip * 10 ^ p.fl + p.fr) * 10 ^ p.ex.toNat

/-- Denominator of the magnitude of a parsed literal:
`10^(fl + max(-ex,0))`. -/
def PyDec.den10 (p : PyDec) : Nat :=
  10 ^ (p.fl + (-p.ex).toNat)

/-- The exact rational value a parsed literal denotes. -/
def PyDec.val (p : PyDec) : ℚ :=
  (if p.sign then -1 else 1) * ((p.num10 : ℚ) / (p.den10 : ℚ))

/-- `int(·)` of the float of a parsed literal: truncation toward zero, i.e. a
natural division of numerator by denominator with the sign reapplied. -/
def PyDec.trunc (p : PyDec) : ℤ :=
  if p.sign then -((p.num10 / p.den10 : Nat) : ℤ)
  else ((p.num10 / p.den10 : Nat) : ℤ)

/-- Magnitudes of at least `2^1024 - 2^970` round to infinity in binary64
(`float` returns `inf`, including the round-to-even tie at the bound). -/
def overflowBound : Nat := 2 ^ 1024 - 2 ^ 970

/-- Does the parsed literal overflow `float` to infinity? -/
def PyDec.isOverflow (p : PyDec) : Bool :=
  decide (overflowBound * p.den10 ≤ p.num10)

/-- A Python float value: finite (kept as its exact decimal rational), a
signed infinity, or NaN. -/
inductive PyFloat where
  | finite (q : ℚ)
  | inf (neg : Bool)
  | nan
deriving DecidableEq

/-- `float(s)`: parse, then send overflowing finite literals to infinity. -/
def pyFloat (s : String) : Option PyFloat :=
  match pyFloatParse s with
  | none => none
  | some (PyParse.inf b) => some (PyFloat.inf b)
  | some PyParse.nan => some PyFloat.nan
  | some (PyParse.num p) =>
    if p.isOverflow then some (PyFloat.inf p.sign) else some (PyFloat.finite p.val)

/-- Truncation of a rational toward zero (`int(float)` on a finite value). -/
def ratTrunc (q : ℚ) : ℤ :=
  if 0 ≤ q then ⌊q⌋ else ⌈q⌉

/-- The `OverflowError` message of `int` applied to an infinite float. -/
def overflowMsg : String :=
  "OverflowError: cannot convert float infinity to integer"

/-- `coerce_to_numeric`: null/empty/unparseable input degrades to the
null-or-zero fallback; every other value is parsed as a float (`inf` and
`nan` strings and overflowing literals included).  Never raises. -/
def coerce_to_numeric (value : Value) (allow_null : Bool := true) :
    Option PyFloat :=
  match value with
  | Value.null => if allow_null then none else some (PyFloat.finite 0)
  | Value.str s =>
    if s = "" then (if allow_null then none else some (PyFloat.finite 0))
    else
      match pyFloatParse s with
      | some (PyParse.num p) =>
        some (if p.isOverflow then PyFloat.inf p.sign else PyFloat.finite p.val)
      | some (PyParse.inf b) => some (PyFloat.inf b)
      | some PyParse.nan => some PyFloat.nan
      | none => if allow_null then none else some (PyFloat.finite 0)
  | Value.num q => some (PyFloat.finite q)
  | Value.inf b => some (PyFloat.inf b)

/-- `coerce_to_integer` = `int(float(value))` with fallbacks: null and empty
input and `ValueError`s (unparseable strings, NaN) degrade to the
null-or-zero fallback, but an infinite float — an `inf` string, an
overflowing literal, or an infinite cell — raises an `OverflowError` that the
source's `except (ValueError, TypeError)` does not catch. -/
def coerce_to_integer (value : Value) (allow_null : Bool := true) :
    Except String (Option ℤ) :=
  match value with
  | Value.null => Except.ok (if allow_null then none else some 0)
  | Value.str s =>
    if s = "" then Except.ok (if allow_null then none else some 0)
    else
      match pyFloatParse s with
      | some (PyParse.num p) =>
        if p.isOverflow then Except.error overflowMsg
        else Except.ok (some p.trunc)
      | some (PyParse.inf _) => Except.error overflowMsg
      | some PyParse.nan => Except.ok (if allow_null then none else some 0)
      | none => Except.ok (if allow_null then none else some 0)
  | Value.num q => Except.ok (some (ratTrunc q))
  | Value.inf _ => Except.error overflowMsg

/-- Whitespace for Python `str.strip` (the forms occurring in cell data). -/
def isSpaceChar (c : Char) : Bool :=
  c = ' ' ∨ c = '\t' ∨ c = '\n' ∨ c = '\r'

/-- Python `str.strip()`: drop whitespace from both ends. -/
def stripStr (s : String) : String :=
  ⟨((s.data.dropWhile isSpaceChar).reverse.dropWhile isSpaceChar).reverse⟩

/-- `coerce_to_text`: only null degrades to the fallback; any other value is
stringified and stripped of surrounding whitespace. -/
def coerce_to_text (value : Value) (allow_null : Bool := true) : Option String :=
  match value with
  | Value.null => if allow_null then none else some ""
  | Value.str s => some (stripStr s)
  | Value.num q => some (stripStr (toString q))
  | Value.inf b => some (stripStr (if b then "-inf" else "inf"))

/-- The cell produced by `series.apply(coerce_to_numeric)`: `None` and NaN
results are stored as null cells (`pd.isna` holds of both), infinities as
infinite cells. -/
def numCell (v : Value) : Value :=
  match coerce_to_numeric v true with
  | none => Value.null
  | some (PyFloat.finite q) => Value.num q
  | some (PyFloat.inf b) => Value.inf b
  | some PyFloat.nan => Value.null

/-- The cell produced by `series.apply(coerce_to_integer)` when it does not
raise: a `None` result is stored as a null cell; an infinite input propagates
the `OverflowError`. -/
def intCell (v : Value) : Except String Value :=
  match coerce_to_integer v true with
  | Except.error e => Except.error e
  | Except.ok none => Except.ok Value.null
  | Except.ok (some n) => Except.ok (Value.num (n : ℚ))

/-- The value `intCell` yields when it does not raise (null otherwise): the
total function characterizing the error-free runs. -/
def intCellTotal (v : Value) : Value :=
  match intCell v with
  | Except.ok w => w
  | Except.error _ => Value.null

/-- Does a fallible computation succeed? -/
def isOkE {α : Type} : Except String α → Bool
  | Except.ok _ => true
  | Except.error _ => false

/-- Apply `f` to the cells of row `r` lying in columns named `c`
(positional zip of names against cells; surplus cells pass through). -/
def applyAtCols (c : String) (f : Value → Value) : List String → Row → Row
  | n :: ns, v :: vs => (if n = c then f v else v) :: applyAtCols c f ns vs
  | _, vs => vs

/-- Error-propagating variant of `applyAtCols` for a fallible cell coercion
(`Series.apply` raising at the first failing cell). -/
def applyAtColsE (c : String) (f : Value → Except String Value) :
    List String → Row → Except String Row
  | n :: ns, v :: vs =>
    match (if n = c then f v else Except.ok v) with
    | Except.error e => Except.error e
    | Except.ok w =>
      match applyAtColsE c f ns vs with
      | Except.error e => Except.error e
      | Except.ok ws => Except.ok (w :: ws)
  | _, vs => Except.ok vs

/-- Apply a fallible row transformation to every row, propagating the first
error. -/
def mapRowsE (F : Row → Except String Row) :
    List Row → Except String (List Row)
  | [] => Except.ok []
  | r :: rs =>
    match F r with
    | Except.error e => Except.error e
    | Except.ok r2 =>
      match mapRowsE F rs with
      | Except.error e => Except.error e
      | Except.ok rs2 => Except.ok (r2 :: rs2)

/-- Shared shape of the column-coercion helpers: for each listed column
present in the table, apply the cell coercion to the whole column; listed
columns absent from the table are skipped. -/
def coerceColumns (cellF : Value → Value) (df : Table) (columns : List String) :
    Table :=
  columns.foldl
    (fun d c =>
      if c ∈ d.cols then
        { d with rows := d.rows.map (applyAtCols c cellF d.cols) }
      else d)
    df

/-- Fallible analogue of `coerceColumns`: listed absent columns are skipped,
and the run aborts at the first raising cell. -/
def coerceColumnsE (cellF : Value → Except String Value) (df : Table) :
    List String → Except String Table
  | [] => Except.ok df
  | c :: l =>
    if c ∈ df.cols then
      match mapRowsE (applyAtColsE c cellF df.cols) df.rows with
      | Except.error e => Except.error e
      | Except.ok rows => coerceColumnsE cellF { df with rows := rows } l
    else coerceColumnsE cellF df l

/-- `coerce_numeric_columns` (total: numeric coercion never raises). -/
def coerce_numeric_columns (df : Table) (numeric_columns : List String) : Table :=
  coerceColumns numCell df numeric_columns

/-- `coerce_integer_columns`: fallible, since integer coercion raises
`OverflowError` on cells whose float value is infinite. -/
def coerce_integer_columns (df : Table) (integer_columns : List String) :
    Except String Table :=
  coerceColumnsE intCell df integer_columns

/-! ## cleaning.py -/

/-- `CleaningStats`: the accumulator of drop counts and warnings threaded
through the cleaning steps. -/
structure CleaningStats where
  total_rows : Nat := 0
  empty_rows_dropped : Nat := 0
  null_store_no_dropped : Nat := 0
  invalid_coords_dropped : Nat := 0
  duplicate_rows_dropped : Nat := 0
  warnings : List String := []
deriving DecidableEq

/-- Predicate of `drop_empty_rows`: a row survives unless every cell is null
(`df.dropna(how='all')`; an empty string is not NA). -/
def rowNotEmpty (r : Row) : Bool :=
  !(r.all isNullV)

/-- `drop_empty_rows`: drop rows whose cells are all null and record the
count. -/
def drop_empty_rows (df : Table) (stats : CleaningStats) :
    Table × CleaningStats :=
  let kept := df.rows.filter rowNotEmpty
  ({ df with rows := kept },
   { stats with empty_rows_dropped := df.rows.length - kept.length })

/-- Predicate of `drop_null_store_no` on one row: the `STORE_NO` cell is
non-null and not the empty string. -/
def storeNoPresent (cols : List String) (r : Row) : Bool :=
  !(isNullV (cellAt cols "STORE_NO" r)) &&
    !(decide (cellAt cols "STORE_NO" r = Value.str ""))

/-- `drop_null_store_no`: if the `STORE_NO` column is absent, return the table
unchanged and record a warning; otherwise drop rows with a null or empty
`STORE_NO`, count them, and warn when any were dropped. -/
def drop_null_store_no (df : Table) (stats : CleaningStats) :
    Table × CleaningStats :=
  if "STORE_NO" ∈ df.cols then
    let kept := df.rows.filter (storeNoPresent df.cols)
    let dropped := df.rows.length - kept.length
    ({ df with rows := kept },
     { stats with
        null_store_no_dropped := dropped,
        warnings :=
          if dropped > 0 then
            stats.warnings ++
              [toString dropped ++ " rows missing required STORE_NO field"]
          else stats.warnings })
  else
    (df, { stats with
            warnings := stats.warnings ++ ["STORE_NO column missing from data"] })

/-- Keep-first split of a list by a key: first component keeps each element
whose key was not seen before it, second collects the later duplicates
(`df.duplicated(subset=[k], keep='first')` marks exactly the second
component). -/
def dedupSplit {α β : Type} [DecidableEq β] (key : α → β) (seen : List β) :
    List α → List α × List α
  | [] => ([], [])
  | a :: l =>
    if key a ∈ seen then
      ((dedupSplit key seen l).1, a :: (dedupSplit key seen l).2)
    else
      (a :: (dedupSplit key (key a :: seen) l).1,
       (dedupSplit key (key a :: seen) l).2)

/-- `Series.unique()`: distinct values in first-occurrence order. -/
def keepFirst {α : Type} [DecidableEq α] (l : List α) : List α :=
  (dedupSplit id [] l).1

/-- `drop_duplicate_store_nos`: with no `STORE_NO` column the table passes
through; otherwise keep the first row of each `STORE_NO`, count the dropped
rows, log a sample of up to five duplicated key values (third component,
mirroring the `logger.warning` diagnostics) and record a count warning. -/
def drop_duplicate_store_nos (df : Table) (stats : CleaningStats) :
    Table × CleaningStats × List Value :=
  if "STORE_NO" ∈ df.cols then
    let p := dedupSplit (cellAt df.cols "STORE_NO") [] df.rows
    let sample := (keepFirst (p.2.map (cellAt df.cols "STORE_NO"))).take 5
    ({ df with rows := p.1 },
     { stats with
        duplicate_rows_dropped := df.rows.length - p.1.length,
        warnings :=
          if p.2.length > 0 then
            stats.warnings ++
              [toString p.2.length ++ " duplicate STORE_NO values found"]
          else stats.warnings },
     sample)
  else (df, stats, [])

/-- `check_data_quality`: per key column present, warn when the null share
exceeds 10% (the float percentage is modelled exactly as the rational
comparison `nulls · 10 > rows`).  The table itself is untouched. -/
def check_data_quality (df : Table) (stats : CleaningStats) : CleaningStats :=
  ["STORE_NO", "CHAIN", "GEOSTATE", "LATITUDE", "LONGITUDE"].foldl
    (fun st c =>
      if c ∈ df.cols then
        let nullCount :=
          (df.rows.filter (fun r => isNullV (cellAt df.cols c r))).length
        if nullCount * 10 > df.rows.length then
          { st with warnings :=
              st.warnings ++ ["Column " ++ c ++ " has more than 10 percent null values"] }
        else st
      else st)
    stats

/-- `clean_excel_data`: drop empty rows, drop rows with null or empty
`STORE_NO`, drop duplicate `STORE_NO` rows, then run the quality checks. -/
def clean_excel_data (df : Table) : Table × CleaningStats :=
  let stats0 : CleaningStats := { total_rows := df.rows.length }
  let r1 := drop_empty_rows df stats0
  let r2 := drop_null_store_no r1.1 r1.2
  let r3 := drop_duplicate_store_nos r2.1 r2.2
  (r3.1, check_data_quality r3.1 r3.2.1)

/-! ## mapping.py -/

/-- `LOCATION_COLUMN_MAP`: Excel column name to database field name, location
field-set, in source order. -/
def LOCATION_COLUMN_MAP : List (String × String) :=
  [("STORE_NO", "store_no"), ("CHAIN_NO", "chain_no"), ("CHAIN", "chain"),
   ("GEOADDRESS", "geoaddress"), ("GEOCITY", "geocity"),
   ("GEOSTATE", "geostate"), ("GEOZIP", "geozip"), ("GEOZIP4", "geozip4"),
   ("COUNTY", "county"), ("DMA(MARKET)", "dma_market"), ("DMA_NO", "dma_no"),
   ("SEGMENT", "segment"), ("SUBSEGMENT", "subsegment"),
   ("CATEGORY", "category"), ("LATITUDE", "latitude"),
   ("LONGITUDE", "longitude"), ("GEOQUALITY", "geoquality"),
   ("YR_BUILT", "yr_built"), ("CO/FR", "co_fr"), ("CO/FR_NO", "co_fr_no"),
   ("SEG_NO", "seg_no")]

/-- `TREND_COLUMN_MAP`: Excel column name to database field name, trend
field-set; `YEAR` is synthesized by the ETL script, not read from Excel. -/
def TREND_COLUMN_MAP : List (String × String) :=
  [("STORE_NO", "store_no"), ("YEAR", "year"),
   ("CNG(CURR_NATL_GRADE)", "curr_natl_grade"),
   ("CNI(CURR_NATL_INDEX)", "curr_natl_index"),
   ("CURR_ANNUAL_SLS($000)", "curr_annual_sls_k"),
   ("CMG(CURR_MKT_GRADE)", "curr_mkt_grade"),
   ("LABEL(CNG/CMG)", "label_cng_cmg"),
   ("LABEL(CNG<PNG)", "label_cng_lt_png"),
   ("CMI(CURR_MKT_INDEX)", "curr_mkt_index"),
   ("SURVEY_YR(LAST/C)", "survey_yr_last_c"),
   ("SURVEY_YR(NEXT/C)", "survey_yr_next_c"),
   ("TTL_NO_SURVEYS(C)", "ttl_no_surveys_c"), ("PAST_YRS", "past_yrs"),
   ("PNG(PAST_NATL_GRADE)", "past_natl_grade"), ("LABEL(PNG)", "label_png"),
   ("PNI(PAST_NATL_INDEX)", "past_natl_index"),
   ("PAST_ANNUAL_SLS($000)", "past_annual_sls_k"),
   ("PMG(PAST_MKT_GRADE)", "past_mkt_grade"),
   ("LABEL(PNG/PMG)", "label_png_pmg"),
   ("PMI(PAST_MKT_INDEX)", "past_mkt_index"),
   ("SURVEY_YR(LAST/P)", "survey_yr_last_p"),
   ("SURVEY_YR(NEXT/P)", "survey_yr_next_p"),
   ("TTL_NO_SURVEYS(P)", "ttl_no_surveys_p")]

/-- `get_location_columns`: the Excel names of the location field-set. -/
def get_location_columns : List String :=
  LOCATION_COLUMN_MAP.map Prod.fst

/-- `get_trend_columns`: the Excel names of the trend field-set, excluding the
synthesized `YEAR`. -/
def get_trend_columns : List String :=
  (TREND_COLUMN_MAP.map Prod.fst).filter (fun k => decide (k ≠ "YEAR"))

/-! ## etl_restaurant_trends.py: splitter -/

/-- `df[cs]` column selection: project the listed columns in order, failing
(pandas `KeyError`) when any listed column is absent. -/
def selectCols (df : Table) (cs : List String) : Option Table :=
  if cs.all (fun c => decide (c ∈ df.cols)) then
    some ⟨cs, df.rows.map (fun r => cs.map (fun c => cellAt df.cols c r))⟩
  else none

/-- `df[c] = v` with a constant: overwrite the column if present, otherwise
append it on the right. -/
def setConstColumn (df : Table) (c : String) (v : Value) : Table :=
  if c ∈ df.cols then
    { df with rows := df.rows.map (applyAtCols c (fun _ => v) df.cols) }
  else ⟨df.cols ++ [c], df.rows.map (fun r => r ++ [v])⟩

/-- `split_location_and_trend_data`: project the location columns and the
trend columns (both selections fail if a column is missing), stamp every trend
row with the year, and deduplicate the location rows by `STORE_NO`
keep-first. -/
def split_location_and_trend_data (df : Table) (year : ℤ) :
    Option (Table × Table) :=
  match selectCols df get_location_columns with
  | none => none
  | some locDf =>
    match selectCols df get_trend_columns with
    | none => none
    | some trendSel =>
      let trendDf := setConstColumn trendSel "YEAR" (Value.num (year : ℚ))
      let locFinal :=
        { locDf with
            rows := (dedupSplit (cellAt locDf.cols "STORE_NO") [] locDf.rows).1 }
      some (locFinal, trendDf)

/-! ## postgres_loader.py -/

/-- The relational store: the `restaurant_location` table keyed by `store_no`
and the `restaurant_trend` table keyed by `(store_no, year)`. -/
structure DB where
  locTable : List (Value × Row) := []
  trendTable : List ((Value × Value) × Row) := []
deriving DecidableEq

/-- Insert-or-update one keyed row (`ON CONFLICT ... DO UPDATE`): an existing
key keeps its position and has its row overwritten, a new key is appended. -/
def upsertAssoc {κ : Type} [DecidableEq κ] (t : List (κ × Row)) (k : κ)
    (r : Row) : List (κ × Row) :=
  if k ∈ t.map Prod.fst then
    t.map (fun e => if e.1 = k then (k, r) else e)
  else t ++ [(k, r)]

/-- The `store_no` keys currently in `restaurant_location`. -/
def locKeys (db : DB) : List Value :=
  db.locTable.map Prod.fst

/-- `upsert_locations`: a no-op on an empty input, an error without a
`store_no` column, otherwise a committed bulk upsert keyed on `store_no`;
returns the affected-row count. -/
def upsert_locations (db : DB) (df : Table) : Except String (DB × Nat) :=
  if df.rows.isEmpty then Except.ok (db, 0)
  else if "store_no" ∈ df.cols then
    Except.ok
      ({ db with
          locTable :=
            df.rows.foldl
              (fun t r => upsertAssoc t (cellAt df.cols "store_no" r) r)
              db.locTable },
       df.rows.length)
  else Except.error "DataFrame must contain store_no column"

/-- `upsert_trends`: a no-op on an empty input, an error without the
`store_no` and `year` columns, otherwise a committed bulk upsert keyed on
`(store_no, year)`. -/
def upsert_trends (db : DB) (df : Table) : Except String (DB × Nat) :=
  if df.rows.isEmpty then Except.ok (db, 0)
  else if "store_no" ∈ df.cols ∧ "year" ∈ df.cols then
    Except.ok
      ({ db with
          trendTable :=
            df.rows.foldl
              (fun t r =>
                upsertAssoc t
                  (cellAt df.cols "store_no" r, cellAt df.cols "year" r) r)
              db.trendTable },
       df.rows.length)
  else Except.error "DataFrame missing required columns"

/-- `verify_foreign_keys`: an empty trend table passes; otherwise collect the
distinct `store_no` values of the trend data and report the ones absent from
`restaurant_location`. -/
def verify_foreign_keys (db : DB) (trend_df : Table) : Bool × List Value :=
  if trend_df.rows.isEmpty then (true, [])
  else
    let store_nos := keepFirst (trend_df.rows.map (cellAt trend_df.cols "store_no"))
    let missing := store_nos.filter (fun v => decide (v ∉ locKeys db))
    if missing.isEmpty then (true, []) else (false, missing)

/-- `load_to_database`: upsert locations (committed), verify foreign keys,
then upsert trends; a failed verification abandons the trend load with a fatal
error naming the count of missing keys, leaving the locations committed.
Returns the run outcome and the final database state. -/
def load_to_database (db : DB) (location_df trend_df : Table) :
    Except String Unit × DB :=
  match upsert_locations db location_df with
  | Except.error e => (Except.error e, db)
  | Except.ok (db1, _) =>
    let fk := verify_foreign_keys db1 trend_df
    if fk.1 then
      match upsert_trends db1 trend_df with
      | Except.error e => (Except.error e, db1)
      | Except.ok (db2, _) => (Except.ok (), db2)
    else
      (Except.error
        ("Cannot load trends: " ++ toString fk.2.length ++
          " store_nos not found in location table"), db1)

/-! ## Toolkit: keep-first deduplication -/

theorem dedupSplit_sublist {α β : Type} [DecidableEq β] (key : α → β)
    (l : List α) (seen : List β) : (dedupSplit key seen l).1.Sublist l := by
  induction l generalizing seen with
  | nil => simp [dedupSplit]
  | cons a l ih =>
    by_cases h : key a ∈ seen
    · simpa [dedupSplit, h] using (ih seen).cons a
    · simpa [dedupSplit, h] using (ih (key a :: seen)).cons₂ a

theorem dedupSplit_perm {α β : Type} [DecidableEq β] (key : α → β)
    (l : List α) (seen : List β) :
    l.Perm ((dedupSplit key seen l).1 ++ (dedupSplit key seen l).2) := by
  induction l generalizing seen with
  | nil => simp [dedupSplit]
  | cons a l ih =>
    by_cases h : key a ∈ seen
    · simp only [dedupSplit, if_pos h]
      exact ((ih seen).cons a).trans List.perm_middle.symm
    · simp only [dedupSplit, if_neg h]
      exact (ih (key a :: seen)).cons a

theorem dedupSplit_length {α β : Type} [DecidableEq β] (key : α → β)
    (l : List α) (seen : List β) :
    (dedupSplit key seen l).1.length + (dedupSplit key seen l).2.length
      = l.length := by
  have h := (dedupSplit_perm key l seen).length_eq
  simpa [List.length_append] using h.symm

theorem dedupSplit_kept_not_seen {α β : Type} [DecidableEq β] (key : α → β)
    (l : List α) (seen : List β) :
    ∀ b ∈ (dedupSplit key seen l).1, key b ∉ seen := by
  induction l generalizing seen with
  | nil => simp [dedupSplit]
  | cons a l ih =>
    by_cases h : key a ∈ seen
    · simpa [dedupSplit, h] using ih seen
    · simp only [dedupSplit, if_neg h]
      intro b hb
      rcases List.mem_cons.mp hb with rfl | hb'
      · exact h
      · exact fun hs => ih (key a :: seen) b hb' (List.mem_cons_of_mem _ hs)

theorem dedupSplit_keys_nodup {α β : Type} [DecidableEq β] (key : α → β)
    (l : List α) (seen : List β) :
    ((dedupSplit key seen l).1.map key).Nodup := by
  induction l generalizing seen with
  | nil => simp [dedupSplit]
  | cons a l ih =>
    by_cases h : key a ∈ seen
    · simpa [dedupSplit, h] using ih seen
    · simp only [dedupSplit, if_neg h, List.map_cons, List.nodup_cons]
      refine ⟨fun hmem => ?_, ih (key a :: seen)⟩
      rcases List.mem_map.mp hmem with ⟨b, hb, hkey⟩
      exact dedupSplit_kept_not_seen key l (key a :: seen) b hb
        (by simp [hkey])

theorem dedupSplit_mem_keys {α β : Type} [DecidableEq β] (key : α → β)
    (l : List α) (seen : List β) :
    ∀ a ∈ l, key a ∉ seen → ∃ b ∈ (dedupSplit key seen l).1, key b = key a := by
  induction l generalizing seen with
  | nil => simp
  | cons x l ih =>
    intro a ha hnot
    by_cases h : key x ∈ seen
    · simp only [dedupSplit, if_pos h]
      rcases List.mem_cons.mp ha with rfl | ha'
      · exact absurd h hnot
      · exact ih seen a ha' hnot
    · simp only [dedupSplit, if_neg h]
      rcases List.mem_cons.mp ha with rfl | ha'
      · exact ⟨a, List.mem_cons_self a _, rfl⟩
      · by_cases hk : key a = key x
        · exact ⟨x, List.mem_cons_self x _, hk.symm⟩
        · have : key a ∉ key x :: seen := by
            simp [hnot, fun hh => hk hh]
          rcases ih (key x :: seen) a ha' this with ⟨b, hb, hkey⟩
          exact ⟨b, List.mem_cons_of_mem _ hb, hkey⟩

theorem dedupSplit_find_first {α β : Type} [DecidableEq β] (key : α → β)
    (l : List α) (seen : List β) :
    ∀ b ∈ (dedupSplit key seen l).1,
      l.find? (fun x => decide (key x = key b)) = some b := by
  induction l generalizing seen with
  | nil => simp [dedupSplit]
  | cons a l ih =>
    intro b hb
    by_cases h : key a ∈ seen
    · simp only [dedupSplit, if_pos h] at hb
      have hne : key a ≠ key b := by
        intro he
        exact dedupSplit_kept_not_seen key l seen b hb (he ▸ h)
      rw [List.find?_cons_of_neg _ (by simpa using hne)]
      exact ih seen b hb
    · simp only [dedupSplit, if_neg h] at hb
      rcases List.mem_cons.mp hb with rfl | hb'
      · exact List.find?_cons_of_pos _ (by simp)
      · have hne : key a ≠ key b := by
          intro he
          exact dedupSplit_kept_not_seen key l (key a :: seen) b hb'
            (by simp [he])
        rw [List.find?_cons_of_neg _ (by simpa using hne)]
        exact ih (key a :: seen) b hb'

theorem dedupSplit_dropped_dup {α β : Type} [DecidableEq β] (key : α → β)
    (l : List α) (seen : List β) :
    ∀ a ∈ (dedupSplit key seen l).2,
      key a ∈ seen ∨ ∃ b ∈ (dedupSplit key seen l).1, key b = key a := by
  induction l generalizing seen with
  | nil => simp [dedupSplit]
  | cons x l ih =>
    intro a ha
    by_cases h : key x ∈ seen
    · simp only [dedupSplit, if_pos h] at ha ⊢
      rcases List.mem_cons.mp ha with rfl | ha'
      · exact Or.inl h
      · exact ih seen a ha'
    · simp only [dedupSplit, if_neg h] at ha ⊢
      rcases ih (key x :: seen) a ha with hseen | ⟨b, hb, hkey⟩
      · rcases List.mem_cons.mp hseen with he | hs
        · exact Or.inr ⟨x, List.mem_cons_self x _, he.symm⟩
        · exact Or.inl hs
      · exact Or.inr ⟨b, List.mem_cons_of_mem _ hb, hkey⟩

theorem dedupSplit_stable {α β : Type} [DecidableEq β] (key : α → β)
    (l : List α) (seen : List β) (h1 : ∀ a ∈ l, key a ∉ seen)
    (h2 : (l.map key).Nodup) : dedupSplit key seen l = (l, []) := by
  induction l generalizing seen with
  | nil => simp [dedupSplit]
  | cons a l ih =>
    have ha : key a ∉ seen := h1 a (List.mem_cons_self a _)
    simp only [List.map_cons, List.nodup_cons] at h2
    have hstep : ∀ b ∈ l, key b ∉ key a :: seen := by
      intro b hb
      simp only [List.mem_cons, not_or]
      refine ⟨fun he => h2.1 ?_, h1 b (List.mem_cons_of_mem _ hb)⟩
      exact he ▸ List.mem_map_of_mem key hb
    simp [dedupSplit, ha, ih (key a :: seen) hstep h2.2]

theorem mem_keepFirst {α : Type} [DecidableEq α] (l : List α) (a : α) :
    a ∈ keepFirst l ↔ a ∈ l := by
  constructor
  · exact fun h => (dedupSplit_sublist id l []).subset h
  · intro h
    rcases dedupSplit_mem_keys id l [] a h (by simp) with ⟨b, hb, he⟩
    have hba : b = a := by simpa using he
    rw [keepFirst, ← hba]
    exact hb

theorem keepFirst_nodup {α : Type} [DecidableEq α] (l : List α) :
    (keepFirst l).Nodup := by
  have h := dedupSplit_keys_nodup id l []
  simpa [keepFirst] using h

/-! ## Toolkit: filename characters -/

theorem baseChars_no_slash (cs : List Char) (h : '/' ∉ cs) :
    baseChars cs = cs := by
  unfold baseChars
  rw [List.takeWhile_eq_self_iff.mpr, List.reverse_reverse]
  intro c hc
  have : c ∈ cs := List.mem_reverse.mp hc
  simp only [decide_eq_true_eq]
  intro he
  exact h (he ▸ this)

theorem takeWhile_append_all {α : Type} (p : α → Bool) (l1 l2 : List α)
    (h : ∀ a ∈ l1, p a = true) :
    (l1 ++ l2).takeWhile p = l1 ++ l2.takeWhile p := by
  induction l1 with
  | nil => rfl
  | cons a l ih =>
    have ha : p a = true := h a (List.mem_cons_self a l)
    simp [List.takeWhile_cons, ha,
      ih (fun b hb => h b (List.mem_cons_of_mem a hb))]

theorem baseChars_after_slash (xs ys : List Char) (h : '/' ∉ ys) :
    baseChars (xs ++ '/' :: ys) = ys := by
  unfold baseChars
  have hrev : (xs ++ '/' :: ys).reverse = ys.reverse ++ '/' :: xs.reverse := by
    simp
  rw [hrev, takeWhile_append_all _ ys.reverse ('/' :: xs.reverse)
    (fun a ha => by
      simp only [decide_eq_true_eq]
      intro he
      exact h (he ▸ List.mem_reverse.mp ha))]
  simp [List.takeWhile_cons]

theorem digitChar_spec (k : Nat) (hk : k < 10) :
    (Char.ofNat (48 + k)).isDigit = true ∧ (Char.ofNat (48 + k)).toNat = 48 + k
      ∧ Char.ofNat (48 + k) ≠ '/' := by
  interval_cases k <;> exact ⟨by decide, by decide, by decide⟩

theorem yeMatch_pos (c0 c1 : Char) (h0 : c0 = 'Y' ∨ c0 = 'y')
    (h1 : c1 = 'E' ∨ c1 = 'e') (d : Nat) (hd : d < 100) (rest : List Char) :
    yeMatch (c0 :: c1 :: Char.ofNat (48 + d / 10) :: Char.ofNat (48 + d % 10)
      :: rest) = some (2000 + d) := by
  obtain ⟨hdig1, htoNat1, -⟩ := digitChar_spec (d / 10) (by omega)
  obtain ⟨hdig0, htoNat0, -⟩ := digitChar_spec (d % 10) (by omega)
  simp only [yeMatch]
  rw [if_pos ⟨h0, h1, hdig1, hdig0⟩, htoNat1, htoNat0]
  congr 1
  omega

/-- Claim C5: on a base name starting, case-insensitively, with `YE` followed
by two (ASCII) digits, the extractor returns `2000` plus the two-digit value,
with no century windowing: stated once at the base-name level (any path, any
letter casing), and again on surface forms with an arbitrary directory prefix
in both upper and lower case; a path whose base name does not start with the
pattern yields none (stated over ASCII base names, where the embedded digit
class coincides with the regex `\d`). -/
theorem claim_C5 :
    (∀ (s : String) (c0 c1 c2 c3 : Char) (rest : List Char),
      baseChars s.data = c0 :: c1 :: c2 :: c3 :: rest →
      (c0 = 'Y' ∨ c0 = 'y') → (c1 = 'E' ∨ c1 = 'e') →
      c2.isDigit = true → c3.isDigit = true →
      extract_year_from_filename s
        = some (2000 + 10 * (c2.toNat - 48) + (c3.toNat - 48))) ∧
    (∀ (d : Nat) (dir rest : String), d < 100 → '/' ∉ rest.data →
      extract_year_from_filename (dir ++ "/YE" ++ twoDigitStr d ++ rest)
          = some (2000 + d) ∧
      extract_year_from_filename (dir ++ "/ye" ++ twoDigitStr d ++ rest)
          = some (2000 + d)) ∧
    (∀ (d : Nat) (rest : String), d < 100 → '/' ∉ rest.data →
      extract_year_from_filename ("YE" ++ twoDigitStr d ++ rest)
        = some (2000 + d)) ∧
    (∀ s : String, (∀ c ∈ baseChars s.data, c.toNat < 128) →
      specYEPatternB (baseChars s.data) = false →
      extract_year_from_filename s = none) := by
  have hbase : ∀ (pre : String) (c0 c1 : Char) (d : Nat) (rest : String),
      d < 100 → '/' ∉ rest.data → (c0 = 'Y' ∨ c0 = 'y') → (c1 = 'E' ∨ c1 = 'e') →
      baseChars (pre.data ++ '/' :: c0 :: c1 :: Char.ofNat (48 + d / 10)
          :: Char.ofNat (48 + d % 10) :: rest.data)
        = c0 :: c1 :: Char.ofNat (48 + d / 10) :: Char.ofNat (48 + d % 10)
          :: rest.data := by
    intro pre c0 c1 d rest hd hsl h0 h1
    obtain ⟨-, htoNat1, hne1⟩ := digitChar_spec (d / 10) (by omega)
    obtain ⟨-, htoNat0, hne0⟩ := digitChar_spec (d % 10) (by omega)
    apply baseChars_after_slash
    simp only [List.mem_cons, not_or]
    refine ⟨?_, ?_, fun he => hne1 he.symm, fun he => hne0 he.symm, hsl⟩
    · rcases h0 with rfl | rfl <;> decide
    · rcases h1 with rfl | rfl <;> decide
  refine ⟨?_, ?_, ?_, ?_⟩
  · intro s c0 c1 c2 c3 rest hb h0 h1 h2 h3
    unfold extract_year_from_filename
    rw [hb]
    simp only [yeMatch]
    rw [if_pos ⟨h0, h1, h2, h3⟩]
  · intro d dir rest hd hsl
    have hdata : ∀ (c0 c1 : Char),
        (dir ++ (String.mk ['/', c0, c1]) ++ twoDigitStr d ++ rest).data
          = dir.data ++ '/' :: c0 :: c1 :: Char.ofNat (48 + d / 10)
            :: Char.ofNat (48 + d % 10) :: rest.data := by
      intro c0 c1
      simp [String.data_append, twoDigitStr]
    constructor
    · show extract_year_from_filename
        (dir ++ (String.mk ['/', 'Y', 'E']) ++ twoDigitStr d ++ rest) = _
      unfold extract_year_from_filename
      rw [hdata 'Y' 'E',
        hbase dir 'Y' 'E' d rest hd hsl (Or.inl rfl) (Or.inl rfl)]
      exact yeMatch_pos 'Y' 'E' (Or.inl rfl) (Or.inl rfl) d hd rest.data
    · show extract_year_from_filename
        (dir ++ (String.mk ['/', 'y', 'e']) ++ twoDigitStr d ++ rest) = _
      unfold extract_year_from_filename
      rw [hdata 'y' 'e',
        hbase dir 'y' 'e' d rest hd hsl (Or.inr rfl) (Or.inr rfl)]
      exact yeMatch_pos 'y' 'e' (Or.inr rfl) (Or.inr rfl) d hd rest.data
  · intro d rest hd hsl
    obtain ⟨-, htoNat1, hne1⟩ := digitChar_spec (d / 10) (by omega)
    obtain ⟨-, htoNat0, hne0⟩ := digitChar_spec (d % 10) (by omega)
    have hdata : ("YE" ++ twoDigitStr d ++ rest).data
        = 'Y' :: 'E' :: Char.ofNat (48 + d / 10) :: Char.ofNat (48 + d % 10)
            :: rest.data := by
      simp [String.data_append, twoDigitStr]
    have hnoslash : '/' ∉ ("YE" ++ twoDigitStr d ++ rest).data := by
      rw [hdata]
      simp only [List.mem_cons, not_or]
      exact ⟨by decide, by decide, fun he => hne1 he.symm,
        fun he => hne0 he.symm, hsl⟩
    unfold extract_year_from_filename
    rw [baseChars_no_slash _ hnoslash, hdata]
    exact yeMatch_pos 'Y' 'E' (Or.inl rfl) (Or.inl rfl) d hd rest.data
  · intro s _hascii h
    unfold extract_year_from_filename
    cases hcs : baseChars s.data with
    | nil => simp [yeMatch]
    | cons c0 t0 =>
      cases t0 with
      | nil => simp [yeMatch]
      | cons c1 t1 =>
        cases t1 with
        | nil => simp [yeMatch]
        | cons c2 t2 =>
          cases t2 with
          | nil => simp [yeMatch]
          | cons c3 t3 =>
            rw [hcs] at h
            simp only [specYEPatternB, decide_eq_false_iff_not] at h
            simp [yeMatch, h]

theorem claim_C5_witness :
    extract_year_from_filename "YE24 Sample.xlsx" = some 2024 ∧
    extract_year_from_filename
        ("data/incoming" ++ "/ye" ++ twoDigitStr 99 ++ " Oculus.xlsx")
      = some 2099 ∧
    extract_year_from_filename "data/processed.xlsx" = none :=
  ⟨claim_C5.1 "YE24 Sample.xlsx" 'Y' 'E' '2' '4' (" Sample.xlsx".data)
     (by decide) (Or.inl rfl) (Or.inl rfl) (by decide) (by decide),
   (claim_C5.2.1 99 "data/incoming" " Oculus.xlsx" (by decide) (by decide)).2,
   claim_C5.2.2.2 "data/processed.xlsx" (by decide) (by decide)⟩

/-! ## Toolkit: float parsing and truncation -/

theorem ratTrunc_div_natCast (a b : Nat) :
    ratTrunc ((a : ℚ) / (b : ℚ)) = ((a / b : Nat) : ℤ) := by
  have hnn : (0:ℚ) ≤ (a : ℚ) / (b : ℚ) :=
    div_nonneg (by positivity) (by positivity)
  rw [ratTrunc, if_pos hnn, ← @Int.cast_natCast ℚ _ a,
    Rat.floor_intCast_div_natCast]
  exact (Int.ofNat_div a b).symm

theorem den10_pos (p : PyDec) : 0 < p.den10 := by
  unfold PyDec.den10
  positivity

theorem PyDec.trunc_eq_ratTrunc (p : PyDec) : p.trunc = ratTrunc p.val := by
  cases hs : p.sign with
  | false =>
    simp only [PyDec.trunc, PyDec.val, hs, Bool.false_eq_true, if_false,
      one_mul]
    exact (ratTrunc_div_natCast p.num10 p.den10).symm
  | true =>
    simp only [PyDec.trunc, PyDec.val, hs, if_true, neg_one_mul]
    by_cases hz : p.num10 = 0
    · simp [hz, ratTrunc]
    · have hdpos : (0:ℚ) < (p.den10 : ℚ) := by
        exact_mod_cast den10_pos p
      have hpos : 0 < (p.num10 : ℚ) / (p.den10 : ℚ) := by
        apply div_pos _ hdpos
        exact_mod_cast Nat.pos_of_ne_zero hz
      rw [ratTrunc, if_neg (by linarith), Int.ceil_neg]
      have hfl : ⌊(p.num10 : ℚ) / (p.den10 : ℚ)⌋
          = ((p.num10 / p.den10 : Nat) : ℤ) := by
        have h2 := ratTrunc_div_natCast p.num10 p.den10
        rwa [ratTrunc, if_pos (le_of_lt hpos)] at h2
      rw [hfl]

theorem PyDec.isOverflow_iff (p : PyDec) :
    p.isOverflow = true ↔ (overflowBound : ℚ) ≤ |p.val| := by
  have hdpos : (0:ℚ) < (p.den10 : ℚ) := by exact_mod_cast den10_pos p
  have habs : |p.val| = (p.num10 : ℚ) / (p.den10 : ℚ) := by
    have hq : (0:ℚ) ≤ (p.num10 : ℚ) / (p.den10 : ℚ) :=
      div_nonneg (by positivity) (le_of_lt hdpos)
    cases hs : p.sign <;>
      simp [PyDec.val, hs, abs_of_nonneg hq, abs_of_nonpos, neg_one_mul,
        abs_neg, hq]
  rw [habs, PyDec.isOverflow, decide_eq_true_eq, le_div_iff hdpos]
  exact_mod_cast Iff.rfl

/-! ## Claim C6: integer coercion (corrected) -/

/-- Claim C6, counterexample: the claim that the integer coercion never
raises is false of the source: `int(float('inf'))` and `int(float('9'·330))`
(a 330-digit literal, which `float` overflows to infinity) raise an
`OverflowError` that `except (ValueError, TypeError)` does not catch. -/
theorem claim_C6_counterexample :
    coerce_to_integer (Value.str "inf") true = Except.error overflowMsg ∧
    coerce_to_integer (Value.str (String.mk (List.replicate 330 '9'))) true
      = Except.error overflowMsg :=
  ⟨rfl, rfl⟩

/-- Claim C6, amended: the integer coercion raises only on an infinite float
result — an explicit `inf` string or a finite literal at or above the binary64
overflow bound, where `int(float(·))` raises an uncaught `OverflowError`; for
every other input it never raises: null, the empty string, unparseable
strings and NaN yield null when `allow_null` and 0 otherwise, and every
parseable finite decimal string is parsed and truncated toward zero
(`"12.7"` gives 12, not 13), `ratTrunc` being truncation toward zero. -/
theorem claim_C6 :
    (∀ a : Bool, coerce_to_integer Value.null a
        = Except.ok (if a then none else some 0)) ∧
    (∀ a : Bool, coerce_to_integer (Value.str "") a
        = Except.ok (if a then none else some 0)) ∧
    (∀ (s : String) (a : Bool), pyFloatParse s = none →
      coerce_to_integer (Value.str s) a
        = Except.ok (if a then none else some 0)) ∧
    (∀ (s : String) (a : Bool), pyFloatParse s = some PyParse.nan →
      coerce_to_integer (Value.str s) a
        = Except.ok (if a then none else some 0)) ∧
    (∀ (s : String) (p : PyDec) (a : Bool),
      pyFloatParse s = some (PyParse.num p) → p.isOverflow = false →
      coerce_to_integer (Value.str s) a = Except.ok (some (ratTrunc p.val))) ∧
    (∀ (s : String) (p : PyDec) (a : Bool),
      pyFloatParse s = some (PyParse.num p) → p.isOverflow = true →
      coerce_to_integer (Value.str s) a = Except.error overflowMsg) ∧
    (∀ (s : String) (b : Bool) (a : Bool),
      pyFloatParse s = some (PyParse.inf b) →
      coerce_to_integer (Value.str s) a = Except.error overflowMsg) ∧
    (∀ (q : ℚ) (a : Bool), coerce_to_integer (Value.num q) a
        = Except.ok (some (ratTrunc q))) ∧
    (∀ q : ℚ, 0 ≤ q → (ratTrunc q : ℚ) ≤ q ∧ q < (ratTrunc q : ℚ) + 1) ∧
    (∀ q : ℚ, q < 0 → q ≤ (ratTrunc q : ℚ) ∧ (ratTrunc q : ℚ) - 1 < q) ∧
    coerce_to_integer (Value.str "12.7") true = Except.ok (some 12) := by
  have hempty : pyFloatParse "" = none := rfl
  refine ⟨fun a => rfl, fun a => rfl, ?_, ?_, ?_, ?_, ?_, fun q a => rfl,
    ?_, ?_, rfl⟩
  · intro s a h
    by_cases hs : s = ""
    · subst hs; rfl
    · simp [coerce_to_integer, hs, h]
  · intro s a h
    by_cases hs : s = ""
    · subst hs; rfl
    · simp [coerce_to_integer, hs, h]
  · intro s p a h hov
    by_cases hs : s = ""
    · subst hs
      rw [hempty] at h
      exact Option.noConfusion h
    · simp [coerce_to_integer, hs, h, hov, PyDec.trunc_eq_ratTrunc]
  · intro s p a h hov
    by_cases hs : s = ""
    · subst hs
      rw [hempty] at h
      exact Option.noConfusion h
    · simp [coerce_to_integer, hs, h, hov]
  · intro s b a h
    by_cases hs : s = ""
    · subst hs
      rw [hempty] at h
      exact Option.noConfusion h
    · simp [coerce_to_integer, hs, h]
  · intro q hq
    rw [ratTrunc, if_pos hq]
    exact ⟨Int.floor_le q, Int.lt_floor_add_one q⟩
  · intro q hq
    rw [ratTrunc, if_neg (not_le.mpr hq)]
    constructor
    · exact Int.le_ceil q
    · have := Int.ceil_lt_add_one q
      linarith

theorem claim_C6_witness :
    coerce_to_integer (Value.str "abc") true = Except.ok none ∧
    coerce_to_integer (Value.str "3.9") false
      = Except.ok (some (ratTrunc (PyDec.val ⟨false, 3, 9, 1, 0⟩))) ∧
    coerce_to_integer (Value.str "1e400") true = Except.error overflowMsg ∧
    ((ratTrunc 2 : ℚ) ≤ 2 ∧ (2:ℚ) < (ratTrunc 2 : ℚ) + 1) :=
  ⟨claim_C6.2.2.1 "abc" true (by decide),
   claim_C6.2.2.2.2.1 "3.9" ⟨false, 3, 9, 1, 0⟩ false (by decide) (by decide),
   claim_C6.2.2.2.2.2.1 "1e400" ⟨false, 1, 0, 0, 400⟩ true (by decide)
     (by decide),
   claim_C6.2.2.2.2.2.2.2.2.1 2 (by decide)⟩

/-- Claim C10: text coercion treats the empty string as a value (it returns
the trimmed empty string under either null policy), while numeric and integer
coercion send the empty string to the null-or-zero fallback; the text null
fallback fires only for genuinely null input. -/
theorem claim_C10 :
    (∀ a : Bool, coerce_to_text (Value.str "") a = some "") ∧
    coerce_to_numeric (Value.str "") true = none ∧
    coerce_to_numeric (Value.str "") false = some (PyFloat.finite 0) ∧
    coerce_to_integer (Value.str "") true = Except.ok none ∧
    coerce_to_integer (Value.str "") false = Except.ok (some 0) ∧
    (∀ (v : Value) (a : Bool), v ≠ Value.null →
      ∃ s, coerce_to_text v a = some s) ∧
    (∀ a : Bool, coerce_to_text Value.null a = if a then none else some "") := by
  refine ⟨fun a => rfl, rfl, rfl, rfl, rfl, ?_, fun a => rfl⟩
  intro v a hv
  cases v with
  | null => exact absurd rfl hv
  | str s => exact ⟨stripStr s, rfl⟩
  | num q => exact ⟨stripStr (toString q), rfl⟩
  | inf b => exact ⟨stripStr (if b then "-inf" else "inf"), rfl⟩

theorem claim_C10_witness :
    (coerce_to_text (Value.str " x ") true).isSome = true := by
  obtain ⟨s, hs⟩ :=
    claim_C10.2.2.2.2.2.1 (Value.str " x ") true (by decide)
  simp [hs]

/-! ## Claim C7: missing key column is a warning, not an abort -/

/-- Claim C7: when the `STORE_NO` column is absent, `drop_null_store_no`
returns the table unchanged (same rows, same order) and only appends the
missing-column warning to the statistics. -/
theorem claim_C7 (df : Table) (stats : CleaningStats)
    (h : "STORE_NO" ∉ df.cols) :
    drop_null_store_no df stats
      = (df, { stats with
                warnings := stats.warnings ++ ["STORE_NO column missing from data"] }) := by
  simp [drop_null_store_no, h]

theorem claim_C7_witness :
    drop_null_store_no ⟨["CHAIN"], [[Value.str "x"]]⟩ {}
      = (⟨["CHAIN"], [[Value.str "x"]]⟩,
         { warnings := ["STORE_NO column missing from data"] }) :=
  claim_C7 ⟨["CHAIN"], [[Value.str "x"]]⟩ {} (by decide)

/-! ## Claim C3: duplicate-key dropping keeps the first occurrence -/

/-- Claim C3: with a `STORE_NO` column present, duplicate dropping keeps a
subsequence of the input in which every key of the input is represented,
every kept row is the first row of its key in input order, kept keys are
pairwise distinct, the dropped-row count accounts for all rows, and the
diagnostics sample at most five duplicated key values (each occurring at
least twice in the input) together with a count warning. -/
theorem claim_C3 (df : Table) (stats : CleaningStats)
    (h : "STORE_NO" ∈ df.cols) :
    (drop_duplicate_store_nos df stats).1.cols = df.cols ∧
    (drop_duplicate_store_nos df stats).1.rows.Sublist df.rows ∧
    (∀ r ∈ df.rows, ∃ r0 ∈ (drop_duplicate_store_nos df stats).1.rows,
      cellAt df.cols "STORE_NO" r0 = cellAt df.cols "STORE_NO" r) ∧
    (∀ r0 ∈ (drop_duplicate_store_nos df stats).1.rows,
      df.rows.find?
        (fun x => decide (cellAt df.cols "STORE_NO" x
          = cellAt df.cols "STORE_NO" r0)) = some r0) ∧
    ((drop_duplicate_store_nos df stats).1.rows.map
      (cellAt df.cols "STORE_NO")).Nodup ∧
    (drop_duplicate_store_nos df stats).2.1.duplicate_rows_dropped
        + (drop_duplicate_store_nos df stats).1.rows.length
      = df.rows.length ∧
    (drop_duplicate_store_nos df stats).2.2.length ≤ 5 ∧
    (∀ v ∈ (drop_duplicate_store_nos df stats).2.2,
      2 ≤ (df.rows.map (cellAt df.cols "STORE_NO")).countP
            (fun x => decide (x = v))) ∧
    ((drop_duplicate_store_nos df stats).1.rows.length < df.rows.length →
      (drop_duplicate_store_nos df stats).2.1.warnings
        = stats.warnings
          ++ [toString (df.rows.length
                - (drop_duplicate_store_nos df stats).1.rows.length)
              ++ " duplicate STORE_NO values found"]) := by
  have hlen := dedupSplit_length (cellAt df.cols "STORE_NO") df.rows []
  have hsub := dedupSplit_sublist (cellAt df.cols "STORE_NO") df.rows []
  have hkeptlen : (dedupSplit (cellAt df.cols "STORE_NO") [] df.rows).1.length
      ≤ df.rows.length := hsub.length_le
  simp only [drop_duplicate_store_nos, if_pos h]
  refine ⟨by trivial, hsub, ?_, ?_, ?_, by omega, ?_, ?_, ?_⟩
  · intro r hr
    exact dedupSplit_mem_keys (cellAt df.cols "STORE_NO") df.rows [] r hr
      (by simp)
  · intro r0 hr0
    exact dedupSplit_find_first (cellAt df.cols "STORE_NO") df.rows [] r0 hr0
  · exact dedupSplit_keys_nodup (cellAt df.cols "STORE_NO") df.rows []
  · rw [List.length_take]
    omega
  · intro v hv
    have hv1 : v ∈ keepFirst
        ((dedupSplit (cellAt df.cols "STORE_NO") [] df.rows).2.map
          (cellAt df.cols "STORE_NO")) := List.mem_of_mem_take hv
    have hv2 : v ∈ (dedupSplit (cellAt df.cols "STORE_NO") [] df.rows).2.map
        (cellAt df.cols "STORE_NO") := (mem_keepFirst _ v).mp hv1
    rcases List.mem_map.mp hv2 with ⟨a, ha, hav⟩
    rcases dedupSplit_dropped_dup (cellAt df.cols "STORE_NO") df.rows [] a ha
      with hs | ⟨b, hb, hba⟩
    · exact absurd hs (List.not_mem_nil _)
    · have hperm := (dedupSplit_perm (cellAt df.cols "STORE_NO") df.rows []).map
        (cellAt df.cols "STORE_NO")
      rw [hperm.countP_eq, List.map_append, List.countP_append]
      have c1 : 0 < ((dedupSplit (cellAt df.cols "STORE_NO") [] df.rows).1.map
          (cellAt df.cols "STORE_NO")).countP (fun x => decide (x = v)) := by
        rw [List.countP_pos_iff]
        exact ⟨cellAt df.cols "STORE_NO" b, List.mem_map_of_mem _ hb,
          by simp [hba, hav]⟩
      have c2 : 0 < ((dedupSplit (cellAt df.cols "STORE_NO") [] df.rows).2.map
          (cellAt df.cols "STORE_NO")).countP (fun x => decide (x = v)) := by
        rw [List.countP_pos_iff]
        exact ⟨v, hv2, by simp⟩
      omega
  · intro hlt
    have hpos : 0 < (dedupSplit (cellAt df.cols "STORE_NO") [] df.rows).2.length := by
      omega
    rw [if_pos hpos]
    have : (dedupSplit (cellAt df.cols "STORE_NO") [] df.rows).2.length
        = df.rows.length
          - (dedupSplit (cellAt df.cols "STORE_NO") [] df.rows).1.length := by
      omega
    rw [this]

theorem claim_C3_witness :
    (drop_duplicate_store_nos
        ⟨["STORE_NO"], [[Value.str "A"], [Value.str "B"], [Value.str "A"]]⟩
        {}).2.1.duplicate_rows_dropped
      + (drop_duplicate_store_nos
          ⟨["STORE_NO"], [[Value.str "A"], [Value.str "B"], [Value.str "A"]]⟩
          {}).1.rows.length = 3 ∧
    (drop_duplicate_store_nos
        ⟨["STORE_NO"], [[Value.str "A"], [Value.str "B"], [Value.str "A"]]⟩
        {}).2.2.length ≤ 5 :=
  ⟨(claim_C3 ⟨["STORE_NO"], [[Value.str "A"], [Value.str "B"], [Value.str "A"]]⟩
      {} (by decide)).2.2.2.2.2.1,
   (claim_C3 ⟨["STORE_NO"], [[Value.str "A"], [Value.str "B"], [Value.str "A"]]⟩
      {} (by decide)).2.2.2.2.2.2.1⟩

/-! ## Claim C1: failed foreign-key verification abandons the trend load -/

theorem upsert_locations_ok_trendTable (db db1 : DB) (df : Table) (n : Nat)
    (h : upsert_locations db df = Except.ok (db1, n)) :
    db1.trendTable = db.trendTable := by
  simp only [upsert_locations] at h
  split at h
  · cases h; rfl
  · split at h
    · cases h; rfl
    · exact Except.noConfusion h

/-- Claim C1: if some distinct `store_no` of the trend table is absent from
the location table after the location upsert, foreign-key verification
returns invalid together with exactly the missing keys, the run fails with
the fatal error naming the count of missing keys, the trend table is left
unchanged by the run, and the locations upserted in step 1 remain the
committed state. -/
theorem claim_C1 (db db1 : DB) (location_df trend_df : Table) (n : Nat)
    (h1 : upsert_locations db location_df = Except.ok (db1, n))
    (h2 : ∃ r ∈ trend_df.rows,
      cellAt trend_df.cols "store_no" r ∉ locKeys db1) :
    (verify_foreign_keys db1 trend_df).1 = false ∧
    (∀ v : Value, v ∈ (verify_foreign_keys db1 trend_df).2 ↔
      ((∃ r ∈ trend_df.rows, cellAt trend_df.cols "store_no" r = v) ∧
        v ∉ locKeys db1)) ∧
    (verify_foreign_keys db1 trend_df).2 ≠ [] ∧
    load_to_database db location_df trend_df
      = (Except.error ("Cannot load trends: "
          ++ toString (verify_foreign_keys db1 trend_df).2.length
          ++ " store_nos not found in location table"), db1) ∧
    db1.trendTable = db.trendTable := by
  obtain ⟨r0, hr0, hmiss⟩ := h2
  have hne : trend_df.rows ≠ [] := by
    intro he
    rw [he] at hr0
    exact absurd hr0 (List.not_mem_nil _)
  have hempty : trend_df.rows.isEmpty = false := by
    cases hrows : trend_df.rows with
    | nil => exact absurd hrows hne
    | cons a l => rfl
  have hv0 : cellAt trend_df.cols "store_no" r0
      ∈ (keepFirst (trend_df.rows.map (cellAt trend_df.cols "store_no"))).filter
        (fun v => decide (v ∉ locKeys db1)) := by
    rw [List.mem_filter]
    refine ⟨(mem_keepFirst _ _).mpr (List.mem_map_of_mem _ hr0), by simpa using hmiss⟩
  have hmiss_ne :
      (keepFirst (trend_df.rows.map (cellAt trend_df.cols "store_no"))).filter
        (fun v => decide (v ∉ locKeys db1)) ≠ [] :=
    List.ne_nil_of_mem hv0
  have hmiss_empty :
      ((keepFirst (trend_df.rows.map (cellAt trend_df.cols "store_no"))).filter
        (fun v => decide (v ∉ locKeys db1))).isEmpty = false := by
    cases hl : (keepFirst (trend_df.rows.map
        (cellAt trend_df.cols "store_no"))).filter
          (fun v => decide (v ∉ locKeys db1)) with
    | nil => exact absurd hl hmiss_ne
    | cons a l => rfl
  have hfk : verify_foreign_keys db1 trend_df
      = (false,
         (keepFirst (trend_df.rows.map (cellAt trend_df.cols "store_no"))).filter
           (fun v => decide (v ∉ locKeys db1))) := by
    simp only [verify_foreign_keys, hempty, Bool.false_eq_true, if_false,
      hmiss_empty]
  refine ⟨by rw [hfk], ?_, by rw [hfk]; exact hmiss_ne, ?_,
    upsert_locations_ok_trendTable db db1 location_df n h1⟩
  · intro v
    rw [hfk]
    simp only [List.mem_filter, mem_keepFirst, List.mem_map,
      decide_eq_true_eq]
  · simp only [load_to_database, h1]
    rw [hfk]
    simp

theorem claim_C1_witness :
    (verify_foreign_keys
        ⟨[(Value.str "A", [Value.str "A"]), (Value.str "B", [Value.str "B"])], []⟩
        ⟨["store_no", "year"],
         [[Value.str "A", Value.num 2024], [Value.str "B", Value.num 2024],
          [Value.str "C", Value.num 2024]]⟩).1 = false ∧
    (verify_foreign_keys
        ⟨[(Value.str "A", [Value.str "A"]), (Value.str "B", [Value.str "B"])], []⟩
        ⟨["store_no", "year"],
         [[Value.str "A", Value.num 2024], [Value.str "B", Value.num 2024],
          [Value.str "C", Value.num 2024]]⟩).2 ≠ [] ∧
    (⟨[(Value.str "A", [Value.str "A"]), (Value.str "B", [Value.str "B"])], []⟩
        : DB).trendTable = (⟨[], []⟩ : DB).trendTable := by
  have h := claim_C1 ⟨[], []⟩
    ⟨[(Value.str "A", [Value.str "A"]), (Value.str "B", [Value.str "B"])], []⟩
    ⟨["store_no"], [[Value.str "A"], [Value.str "B"]]⟩
    ⟨["store_no", "year"],
     [[Value.str "A", Value.num 2024], [Value.str "B", Value.num 2024],
      [Value.str "C", Value.num 2024]]⟩ 2
    (by rfl)
    ⟨[Value.str "C", Value.num 2024], by decide, by decide⟩
  exact ⟨h.1, h.2.2.1, h.2.2.2.2⟩

/-! ## Toolkit: column projection -/

theorem cellAt_map_self (cs : List String) (c : String) (g : String → Value)
    (h : c ∈ cs) : cellAt cs c (cs.map g) = g c := by
  induction cs with
  | nil => exact absurd h (List.not_mem_nil c)
  | cons n ns ih =>
    by_cases he : n = c
    · simp [cellAt, he]
    · have hc : c ∈ ns := by
        rcases List.mem_cons.mp h with h1 | h2
        · exact absurd h1.symm he
        · exact h2
      simp [cellAt, he, ih hc]

theorem cellAt_append_last (ns : List String) (vs : Row) (c : String)
    (v : Value) (h : c ∉ ns) (hlen : ns.length = vs.length) :
    cellAt (ns ++ [c]) c (vs ++ [v]) = v := by
  induction ns generalizing vs with
  | nil =>
    have : vs = [] := by
      cases vs with
      | nil => rfl
      | cons a l => exact absurd hlen (by simp)
    subst this
    simp [cellAt]
  | cons n ns ih =>
    cases vs with
    | nil => exact absurd hlen (by simp)
    | cons w ws =>
      have hne : n ≠ c := fun he => h (he ▸ List.mem_cons_self n ns)
      have h' : c ∉ ns := fun hc => h (List.mem_cons_of_mem _ hc)
      simp only [List.cons_append, cellAt, if_neg hne]
      exact ih ws h' (by simpa using hlen)

theorem selectCols_eq_some (df : Table) (cs : List String)
    (h : ∀ c ∈ cs, c ∈ df.cols) :
    selectCols df cs
      = some ⟨cs, df.rows.map (fun r => cs.map (fun c => cellAt df.cols c r))⟩ := by
  rw [selectCols, if_pos]
  rw [List.all_eq_true]
  intro c hc
  exact decide_eq_true (h c hc)

theorem selectCols_eq_none (df : Table) (cs : List String)
    (h : ∃ c ∈ cs, c ∉ df.cols) :
    selectCols df cs = none := by
  rw [selectCols, if_neg]
  rw [List.all_eq_true]
  intro hall
  rcases h with ⟨c, hc, hnot⟩
  exact hnot (of_decide_eq_true (hall c hc))

theorem selectCols_some_mem (df : Table) (cs : List String) (t : Table)
    (h : selectCols df cs = some t) : ∀ c ∈ cs, c ∈ df.cols := by
  intro c hc
  by_contra hnot
  rw [selectCols_eq_none df cs ⟨c, hc, hnot⟩] at h
  exact Option.noConfusion h

theorem dedupSplit_map_key_mem {α β : Type} [DecidableEq β] (key : α → β)
    (l : List α) (v : β) :
    (v ∈ (dedupSplit key [] l).1.map key) ↔ v ∈ l.map key := by
  constructor
  · intro hv
    rcases List.mem_map.mp hv with ⟨b, hb, hkey⟩
    exact hkey ▸ List.mem_map_of_mem key ((dedupSplit_sublist key l []).subset hb)
  · intro hv
    rcases List.mem_map.mp hv with ⟨a, ha, hkey⟩
    rcases dedupSplit_mem_keys key l [] a ha (by simp) with ⟨b, hb, hba⟩
    exact List.mem_map.mpr ⟨b, hb, hba.trans hkey⟩

/-! ## Claims C2 and C9: the splitter -/

/-- Claim C2: when every listed external column is present, the split
succeeds, the location output's key multiset-as-set equals the key set of the
cleaned input with no key duplicated, and every trend row carries the supplied
year value in its `YEAR` column. -/
theorem claim_C2 (df : Table) (year : ℤ)
    (h : ∀ c ∈ get_location_columns ++ get_trend_columns, c ∈ df.cols) :
    ∃ locDf trendDf,
      split_location_and_trend_data df year = some (locDf, trendDf) ∧
      (∀ v : Value, v ∈ locDf.rows.map (cellAt locDf.cols "STORE_NO")
        ↔ v ∈ df.rows.map (cellAt df.cols "STORE_NO")) ∧
      (locDf.rows.map (cellAt locDf.cols "STORE_NO")).Nodup ∧
      (∀ r ∈ trendDf.rows,
        cellAt trendDf.cols "YEAR" r = Value.num (year : ℚ)) := by
  have hloc : ∀ c ∈ get_location_columns, c ∈ df.cols :=
    fun c hc => h c (List.mem_append_left _ hc)
  have htr : ∀ c ∈ get_trend_columns, c ∈ df.cols :=
    fun c hc => h c (List.mem_append_right _ hc)
  have s1 := selectCols_eq_some df get_location_columns hloc
  have s2 := selectCols_eq_some df get_trend_columns htr
  have hYearNot : "YEAR" ∉ get_trend_columns := by decide
  have hStoreIn : "STORE_NO" ∈ get_location_columns := by decide
  refine ⟨⟨get_location_columns,
      (dedupSplit (cellAt get_location_columns "STORE_NO") []
        (df.rows.map
          (fun r => get_location_columns.map (fun c => cellAt df.cols c r)))).1⟩,
    ⟨get_trend_columns ++ ["YEAR"],
      (df.rows.map
        (fun r => get_trend_columns.map (fun c => cellAt df.cols c r))).map
          (fun r => r ++ [Value.num (year : ℚ)])⟩, ?_, ?_, ?_, ?_⟩
  · simp only [split_location_and_trend_data, s1, s2, setConstColumn,
      if_neg hYearNot]
  · intro v
    have hkeys : (df.rows.map
          (fun r => get_location_columns.map (fun c => cellAt df.cols c r))).map
            (cellAt get_location_columns "STORE_NO")
        = df.rows.map (cellAt df.cols "STORE_NO") := by
      rw [List.map_map]
      exact List.map_congr_left
        (fun r _ => cellAt_map_self get_location_columns "STORE_NO" _ hStoreIn)
    rw [← hkeys]
    exact dedupSplit_map_key_mem (cellAt get_location_columns "STORE_NO") _ v
  · exact dedupSplit_keys_nodup (cellAt get_location_columns "STORE_NO") _ []
  · intro r hr
    simp only [List.mem_map] at hr
    rcases hr with ⟨r0, ⟨rr, _, rfl⟩, rfl⟩
    exact cellAt_append_last get_trend_columns _ "YEAR" _ hYearNot
      (by rw [List.length_map])

theorem claim_C2_witness :
    (split_location_and_trend_data
        ⟨get_location_columns ++ get_trend_columns,
         [List.replicate 43 (Value.str "A")]⟩ 2024).isSome = true := by
  obtain ⟨locDf, trendDf, hs, _⟩ :=
    claim_C2 ⟨get_location_columns ++ get_trend_columns,
      [List.replicate 43 (Value.str "A")]⟩ 2024 (fun c hc => hc)
  rw [hs]
  rfl

/-- Claim C9: column absence is fatal at the split step: if any location
column or any trend column (`YEAR` excluded, as it is synthesized) is missing
from the cleaned table, `split_location_and_trend_data` fails instead of
projecting the columns that do exist. -/
theorem claim_C9 (df : Table) (year : ℤ)
    (h : ∃ c, (c ∈ get_location_columns ∨ c ∈ get_trend_columns)
      ∧ c ∉ df.cols) :
    split_location_and_trend_data df year = none := by
  obtain ⟨c, hc, hnot⟩ := h
  cases hsel : selectCols df get_location_columns with
  | none => simp [split_location_and_trend_data, hsel]
  | some l =>
    have hctr : c ∈ get_trend_columns := by
      rcases hc with h1 | h2
      · exact absurd (selectCols_some_mem df get_location_columns l hsel c h1)
          hnot
      · exact h2
    simp [split_location_and_trend_data, hsel,
      selectCols_eq_none df get_trend_columns ⟨c, hctr, hnot⟩]

theorem claim_C9_witness :
    split_location_and_trend_data ⟨["STORE_NO"], []⟩ 2024 = none :=
  claim_C9 ⟨["STORE_NO"], []⟩ 2024 ⟨"CHAIN", Or.inl (by decide), by decide⟩

/-! ## Claim C4: cleaning is idempotent -/

theorem clean_excel_data_table (df : Table) :
    (clean_excel_data df).1 =
      if "STORE_NO" ∈ df.cols then
        ⟨df.cols, (dedupSplit (cellAt df.cols "STORE_NO") []
          ((df.rows.filter rowNotEmpty).filter (storeNoPresent df.cols))).1⟩
      else ⟨df.cols, df.rows.filter rowNotEmpty⟩ := by
  by_cases hc : "STORE_NO" ∈ df.cols <;>
    simp [clean_excel_data, drop_empty_rows, drop_null_store_no,
      drop_duplicate_store_nos, hc]

/-- Claim C4: re-running the cleaning pipeline on its own output changes
nothing: the second run's output table equals its input table, so the second
run drops zero rows. -/
theorem claim_C4 (df : Table) :
    (clean_excel_data (clean_excel_data df).1).1 = (clean_excel_data df).1 := by
  by_cases hc : "STORE_NO" ∈ df.cols
  · have htab := clean_excel_data_table df
    rw [if_pos hc] at htab
    have hmem2 : ∀ a ∈ (dedupSplit (cellAt df.cols "STORE_NO") []
        ((df.rows.filter rowNotEmpty).filter (storeNoPresent df.cols))).1,
        a ∈ (df.rows.filter rowNotEmpty).filter (storeNoPresent df.cols) :=
      fun a ha => (dedupSplit_sublist _ _ []).subset ha
    have hfil1 : (dedupSplit (cellAt df.cols "STORE_NO") []
        ((df.rows.filter rowNotEmpty).filter (storeNoPresent df.cols))).1.filter
          rowNotEmpty
        = (dedupSplit (cellAt df.cols "STORE_NO") []
          ((df.rows.filter rowNotEmpty).filter (storeNoPresent df.cols))).1 :=
      List.filter_eq_self.mpr (fun a ha =>
        List.of_mem_filter (List.mem_of_mem_filter (hmem2 a ha)))
    have hfil2 : (dedupSplit (cellAt df.cols "STORE_NO") []
        ((df.rows.filter rowNotEmpty).filter (storeNoPresent df.cols))).1.filter
          (storeNoPresent df.cols)
        = (dedupSplit (cellAt df.cols "STORE_NO") []
          ((df.rows.filter rowNotEmpty).filter (storeNoPresent df.cols))).1 :=
      List.filter_eq_self.mpr (fun a ha => List.of_mem_filter (hmem2 a ha))
    have hstab := dedupSplit_stable (cellAt df.cols "STORE_NO")
      (dedupSplit (cellAt df.cols "STORE_NO") []
        ((df.rows.filter rowNotEmpty).filter (storeNoPresent df.cols))).1 []
      (by simp) (dedupSplit_keys_nodup _ _ [])
    rw [htab]
    have htab2 := clean_excel_data_table
      ⟨df.cols, (dedupSplit (cellAt df.cols "STORE_NO") []
        ((df.rows.filter rowNotEmpty).filter (storeNoPresent df.cols))).1⟩
    rw [if_pos hc] at htab2
    rw [htab2]
    simp only at hfil1 hfil2 ⊢
    rw [hfil1, hfil2, hstab]
  · have htab := clean_excel_data_table df
    rw [if_neg hc] at htab
    rw [htab]
    have htab2 := clean_excel_data_table ⟨df.cols, df.rows.filter rowNotEmpty⟩
    rw [if_neg hc] at htab2
    rw [htab2]
    have : (df.rows.filter rowNotEmpty).filter rowNotEmpty
        = df.rows.filter rowNotEmpty :=
      List.filter_eq_self.mpr (fun a ha => List.of_mem_filter ha)
    simp only at this ⊢
    rw [this]

/-! ## Claim C8: column-level coercion frame properties (corrected) -/

theorem numCell_null : numCell Value.null = Value.null := rfl

theorem numCell_idem (v : Value) : numCell (numCell v) = numCell v := by
  cases hp : coerce_to_numeric v true with
  | none =>
    unfold numCell
    rw [hp]
    rfl
  | some f =>
    cases f with
    | finite q =>
      unfold numCell
      rw [hp]
      rfl
    | inf b =>
      unfold numCell
      rw [hp]
      rfl
    | nan =>
      unfold numCell
      rw [hp]
      rfl

theorem ratTrunc_intCast (n : ℤ) : ratTrunc (n : ℚ) = n := by
  rw [ratTrunc]
  by_cases h : (0:ℚ) ≤ (n : ℚ)
  · rw [if_pos h, Int.floor_intCast]
  · rw [if_neg h, Int.ceil_intCast]

theorem intCellTotal_null : intCellTotal Value.null = Value.null := rfl

theorem intCell_ok_of_isOkE (v : Value) (h : isOkE (intCell v) = true) :
    intCell v = Except.ok (intCellTotal v) := by
  cases hi : intCell v with
  | ok w => rw [intCellTotal, hi]
  | error e =>
    rw [hi] at h
    exact absurd h (by simp [isOkE])

theorem intCellTotal_shape (v : Value) :
    intCellTotal v = Value.null ∨ ∃ n : ℤ, intCellTotal v = Value.num (n : ℚ) := by
  cases h : coerce_to_integer v true with
  | error e =>
    left
    unfold intCellTotal intCell
    rw [h]
  | ok o =>
    cases o with
    | none =>
      left
      unfold intCellTotal intCell
      rw [h]
    | some n =>
      right
      refine ⟨n, ?_⟩
      unfold intCellTotal intCell
      rw [h]

theorem intCell_total_ok (v : Value) : isOkE (intCell (intCellTotal v)) = true := by
  rcases intCellTotal_shape v with h | ⟨n, h⟩
  · rw [h]
    rfl
  · rw [h]
    rfl

theorem intCellTotal_idem (v : Value) :
    intCellTotal (intCellTotal v) = intCellTotal v := by
  rcases intCellTotal_shape v with h | ⟨n, h⟩
  · rw [h]
    rfl
  · rw [h]
    show Value.num ((ratTrunc (n : ℚ) : ℤ) : ℚ) = Value.num (n : ℚ)
    rw [ratTrunc_intCast]

theorem applyAtCols_length (c : String) (f : Value → Value) :
    ∀ (ns : List String) (r : Row), (applyAtCols c f ns r).length = r.length := by
  intro ns
  induction ns with
  | nil => intro r; rfl
  | cons n ns ih =>
    intro r
    cases r with
    | nil => rfl
    | cons v vs => simp [applyAtCols, ih vs]

theorem applyAtCols_getD (c : String) (f : Value → Value)
    (hF : f Value.null = Value.null) :
    ∀ (ns : List String) (r : Row) (j : Nat),
      (r.length = ns.length ∨ r = []) →
      (applyAtCols c f ns r).getD j Value.null
        = if ns.getD j "" = c then f (r.getD j Value.null)
          else r.getD j Value.null := by
  intro ns
  induction ns with
  | nil =>
    intro r j hlen
    have hr : r = [] := by
      rcases hlen with h | h
      · exact List.length_eq_zero.mp h
      · exact h
    subst hr
    by_cases hc : "" = c <;> simp [applyAtCols, hc, hF]
  | cons n ns ih =>
    intro r j hlen
    cases r with
    | nil =>
      cases j with
      | zero =>
        by_cases hc : n = c <;> simp [applyAtCols, hc, hF]
      | succ j =>
        have := ih [] j (Or.inr rfl)
        simpa [applyAtCols] using this
    | cons v vs =>
      have hlen' : vs.length = ns.length := by
        rcases hlen with h | h
        · simpa using h
        · exact absurd h (by simp)
      cases j with
      | zero => simp [applyAtCols]
      | succ j => simpa [applyAtCols] using ih vs j (Or.inl hlen')

theorem getD_mem_of_lt {α : Type} (l : List α) (d : α) (i : Nat)
    (h : i < l.length) : l.getD i d ∈ l := by
  rw [List.getD_eq_getElem l d h]
  exact List.getElem_mem h

theorem applyAtCols_nil (c : String) (f : Value → Value) (ns : List String) :
    applyAtCols c f ns [] = [] := by
  cases ns <;> rfl

theorem getD_map_row (f : Row → Row) (hf : f [] = []) (l : List Row) :
    ∀ i : Nat, (l.map f).getD i [] = f (l.getD i []) := by
  induction l with
  | nil => intro i; simp [hf]
  | cons r l ih =>
    intro i
    cases i with
    | zero => rfl
    | succ i => simpa using ih i

theorem coerceColumns_step (cellF : Value → Value) (df : Table) (c : String)
    (l : List String) :
    coerceColumns cellF df (c :: l)
      = coerceColumns cellF
          (if c ∈ df.cols then
            { df with rows := df.rows.map (applyAtCols c cellF df.cols) }
          else df) l := rfl

theorem coerceColumns_cols (cellF : Value → Value) :
    ∀ (l : List String) (df : Table),
      (coerceColumns cellF df l).cols = df.cols := by
  intro l
  induction l with
  | nil => intro df; rfl
  | cons c l ih =>
    intro df
    rw [coerceColumns_step]
    by_cases hc : c ∈ df.cols
    · rw [if_pos hc, ih]
    · rw [if_neg hc, ih]

theorem coerceColumns_rows_length (cellF : Value → Value) :
    ∀ (l : List String) (df : Table),
      (coerceColumns cellF df l).rows.length = df.rows.length := by
  intro l
  induction l with
  | nil => intro df; rfl
  | cons c l ih =>
    intro df
    rw [coerceColumns_step]
    by_cases hc : c ∈ df.cols
    · rw [if_pos hc, ih]
      simp
    · rw [if_neg hc, ih]

theorem coerceColumns_cell (cellF : Value → Value)
    (hF : cellF Value.null = Value.null)
    (hIdem : ∀ v, cellF (cellF v) = cellF v) :
    ∀ (l : List String) (df : Table),
      (∀ r ∈ df.rows, r.length = df.cols.length) →
      ∀ i j : Nat,
        ((coerceColumns cellF df l).rows.getD i []).getD j Value.null
          = if df.cols.getD j "" ∈ l
            then cellF ((df.rows.getD i []).getD j Value.null)
            else (df.rows.getD i []).getD j Value.null := by
  intro l
  induction l with
  | nil =>
    intro df hwf i j
    simp [coerceColumns]
  | cons c l ih =>
    intro df hwf i j
    rw [coerceColumns_step]
    have hrowOK : (df.rows.getD i []).length = df.cols.length
        ∨ df.rows.getD i [] = [] := by
      by_cases hi : i < df.rows.length
      · exact Or.inl (hwf _ (getD_mem_of_lt df.rows [] i hi))
      · exact Or.inr (List.getD_eq_default _ _ (le_of_not_lt hi))
    by_cases hc : c ∈ df.cols
    · rw [if_pos hc]
      have hwf1 : ∀ r ∈ (df.rows.map (applyAtCols c cellF df.cols)),
          r.length = df.cols.length := by
        intro r hr
        rcases List.mem_map.mp hr with ⟨r0, hr0, rfl⟩
        rw [applyAtCols_length]
        exact hwf r0 hr0
      have hcell := ih { df with rows := df.rows.map (applyAtCols c cellF df.cols) }
        hwf1 i j
      simp only at hcell
      rw [hcell, getD_map_row _ (applyAtCols_nil c cellF df.cols),
        applyAtCols_getD c cellF hF df.cols (df.rows.getD i []) j hrowOK]
      by_cases hj : df.cols.getD j "" = c
      · rw [if_pos hj]
        have hmem : df.cols.getD j "" ∈ c :: l := by
          rw [hj]; exact List.mem_cons_self c l
        rw [if_pos hmem]
        by_cases hjl : df.cols.getD j "" ∈ l
        · rw [if_pos hjl, hIdem]
        · rw [if_neg hjl]
      · rw [if_neg hj]
        by_cases hjl : df.cols.getD j "" ∈ l
        · rw [if_pos hjl, if_pos (List.mem_cons_of_mem c hjl)]
        · rw [if_neg hjl, if_neg (by
            intro hmem
            rcases List.mem_cons.mp hmem with h1 | h2
            · exact hj h1
            · exact hjl h2)]
    · rw [if_neg hc]
      rw [ih df hwf i j]
      by_cases hj : df.cols.getD j "" = c
      · have hnull : (df.rows.getD i []).getD j Value.null = Value.null := by
          rcases hrowOK with hlenr | hnil
          · by_cases hjlt : j < df.cols.length
            · exact absurd (hj ▸ getD_mem_of_lt df.cols "" j hjlt) hc
            · exact List.getD_eq_default _ _ (by omega)
          · rw [hnil]
            rfl
        by_cases hjl : df.cols.getD j "" ∈ l
        · rw [if_pos hjl, if_pos (List.mem_cons_of_mem c hjl)]
        · rw [if_neg hjl, if_pos (by rw [hj]; exact List.mem_cons_self c l),
            hnull, hF]
      · by_cases hjl : df.cols.getD j "" ∈ l
        · rw [if_pos hjl, if_pos (List.mem_cons_of_mem c hjl)]
        · rw [if_neg hjl, if_neg (by
            intro hmem
            rcases List.mem_cons.mp hmem with h1 | h2
            · exact hj h1
            · exact hjl h2)]

theorem applyAtColsE_nil (c : String) (f : Value → Except String Value)
    (ns : List String) : applyAtColsE c f ns [] = Except.ok [] := by
  cases ns <;> rfl

theorem applyAtCols_mem (c : String) (g : Value → Value) :
    ∀ (ns : List String) (r : Row) (w : Value), w ∈ applyAtCols c g ns r →
      w ∈ r ∨ ∃ v ∈ r, w = g v := by
  intro ns
  induction ns with
  | nil =>
    intro r w hw
    cases r with
    | nil => exact Or.inl hw
    | cons v vs => exact Or.inl hw
  | cons n ns ih =>
    intro r w hw
    cases r with
    | nil =>
      exact Or.inl hw
    | cons v vs =>
      simp only [applyAtCols] at hw
      rcases List.mem_cons.mp hw with h1 | h2
      · by_cases hn : n = c
        · right
          exact ⟨v, List.mem_cons_self _ _, by rw [h1, if_pos hn]⟩
        · left
          rw [h1, if_neg hn]
          exact List.mem_cons_self _ _
      · rcases ih vs w h2 with h | ⟨v0, hv0, he⟩
        · exact Or.inl (List.mem_cons_of_mem _ h)
        · exact Or.inr ⟨v0, List.mem_cons_of_mem _ hv0, he⟩

theorem applyAtColsE_ok (c : String) (f : Value → Except String Value)
    (g : Value → Value)
    (hfg : ∀ v, isOkE (f v) = true → f v = Except.ok (g v)) :
    ∀ (ns : List String) (r : Row), (∀ v ∈ r, isOkE (f v) = true) →
      applyAtColsE c f ns r = Except.ok (applyAtCols c g ns r) := by
  intro ns
  induction ns with
  | nil =>
    intro r h
    cases r with
    | nil => rfl
    | cons v vs => rfl
  | cons n ns ih =>
    intro r h
    cases r with
    | nil => rfl
    | cons v vs =>
      have hv : f v = Except.ok (g v) :=
        hfg v (h v (List.mem_cons_self v vs))
      have hrest := ih vs (fun w hw => h w (List.mem_cons_of_mem _ hw))
      by_cases hn : n = c
      · simp only [applyAtColsE, applyAtCols, if_pos hn, hv, hrest]
      · simp only [applyAtColsE, applyAtCols, if_neg hn, hrest]

theorem mapRowsE_ok (F : Row → Except String Row) (G : Row → Row)
    (l : List Row) (h : ∀ r ∈ l, F r = Except.ok (G r)) :
    mapRowsE F l = Except.ok (l.map G) := by
  induction l with
  | nil => rfl
  | cons r rs ih =>
    simp only [mapRowsE, h r (List.mem_cons_self r rs),
      ih (fun x hx => h x (List.mem_cons_of_mem _ hx)), List.map_cons]

theorem coerceColumnsE_eq_ok (cellF : Value → Except String Value)
    (g : Value → Value)
    (hg : ∀ v, isOkE (cellF v) = true → cellF v = Except.ok (g v))
    (hgok : ∀ v, isOkE (cellF (g v)) = true) :
    ∀ (l : List String) (df : Table),
      (∀ r ∈ df.rows, ∀ v ∈ r, isOkE (cellF v) = true) →
      coerceColumnsE cellF df l = Except.ok (coerceColumns g df l) := by
  intro l
  induction l with
  | nil =>
    intro df h
    rfl
  | cons c l ih =>
    intro df h
    by_cases hc : c ∈ df.cols
    · have hmap : mapRowsE (applyAtColsE c cellF df.cols) df.rows
          = Except.ok (df.rows.map (applyAtCols c g df.cols)) := by
        apply mapRowsE_ok
        intro r hr
        exact applyAtColsE_ok c cellF g hg df.cols r (h r hr)
      have hnew : ∀ r ∈ df.rows.map (applyAtCols c g df.cols), ∀ v ∈ r,
          isOkE (cellF v) = true := by
        intro r hr v hv
        rcases List.mem_map.mp hr with ⟨r0, hr0, rfl⟩
        rcases applyAtCols_mem c g df.cols r0 v hv with h1 | ⟨v0, hv0, rfl⟩
        · exact h r0 hr0 v h1
        · exact hgok v0
      rw [coerceColumns_step, if_pos hc]
      simp only [coerceColumnsE, if_pos hc, hmap]
      exact ih _ hnew
    · rw [coerceColumns_step, if_neg hc]
      simp only [coerceColumnsE, if_neg hc]
      exact ih df h

/-- Claim C8, counterexample: the claim is false as stated over every table —
a listed integer column containing an `inf` cell makes the integer helper
raise `OverflowError` instead of returning a coerced table. -/
theorem claim_C8_counterexample :
    coerce_integer_columns ⟨["yr_built"], [[Value.str "inf"]]⟩ ["yr_built"]
      = Except.error overflowMsg := rfl

/-- Claim C8, amended: both helpers preserve the column list, the row count
and the row order, coerce every cell of each listed column present in the
table element-wise, leave all other cells unchanged, and silently skip listed
columns absent from the table — unconditionally for the numeric helper
(numeric coercion never raises), and for the integer helper provided every
cell coerces without overflow; on a cell whose float value is infinite the
integer helper instead raises `OverflowError` (see the counterexample). -/
theorem claim_C8 (df : Table) (numeric_columns integer_columns : List String)
    (hwf : ∀ r ∈ df.rows, r.length = df.cols.length)
    (hok : ∀ r ∈ df.rows, ∀ v ∈ r, isOkE (intCell v) = true) :
    (coerce_numeric_columns df numeric_columns).cols = df.cols ∧
    (coerce_numeric_columns df numeric_columns).rows.length
      = df.rows.length ∧
    (∀ i j : Nat,
      ((coerce_numeric_columns df numeric_columns).rows.getD i []).getD j
          Value.null
        = if df.cols.getD j "" ∈ numeric_columns
          then numCell ((df.rows.getD i []).getD j Value.null)
          else (df.rows.getD i []).getD j Value.null) ∧
    (∃ t : Table,
      coerce_integer_columns df integer_columns = Except.ok t ∧
      t.cols = df.cols ∧
      t.rows.length = df.rows.length ∧
      (∀ i j : Nat,
        (t.rows.getD i []).getD j Value.null
          = if df.cols.getD j "" ∈ integer_columns
            then intCellTotal ((df.rows.getD i []).getD j Value.null)
            else (df.rows.getD i []).getD j Value.null)) :=
  ⟨coerceColumns_cols numCell numeric_columns df,
   coerceColumns_rows_length numCell numeric_columns df,
   coerceColumns_cell numCell rfl numCell_idem numeric_columns df hwf,
   ⟨coerceColumns intCellTotal df integer_columns,
    coerceColumnsE_eq_ok intCell intCellTotal intCell_ok_of_isOkE
      intCell_total_ok integer_columns df hok,
    coerceColumns_cols intCellTotal integer_columns df,
    coerceColumns_rows_length intCellTotal integer_columns df,
    coerceColumns_cell intCellTotal rfl intCellTotal_idem integer_columns df
      hwf⟩⟩

theorem claim_C8_witness :
    (coerce_numeric_columns ⟨["latitude", "chain"],
        [[Value.str "1.5", Value.null]]⟩ ["latitude", "longitude"]).cols
      = ["latitude", "chain"] ∧
    isOkE (coerce_integer_columns ⟨["latitude", "chain"],
        [[Value.str "1.5", Value.null]]⟩ ["yr_built"]) = true := by
  constructor
  · exact (claim_C8 ⟨["latitude", "chain"], [[Value.str "1.5", Value.null]]⟩
      ["latitude", "longitude"] ["yr_built"] (by decide) (by decide)).1
  · obtain ⟨t, ht, -, -, -⟩ :=
      (claim_C8 ⟨["latitude", "chain"], [[Value.str "1.5", Value.null]]⟩
        ["latitude", "longitude"] ["yr_built"] (by decide) (by decide)).2.2.2
    rw [ht]
    rfl
